import Mathlib

/-!
Shallow embedding of `src/main.py` (Gemini File Search demo, FastAPI app).

The app keeps process-wide mutable state: the `GEMINI_API_KEY` environment
entry, a lazily constructed client, a lazily created remote file-search
store, and a flat local upload directory.  External-service behaviour
(ingestion completion, answer generation, client-construction failure) is
supplied through oracle parameters.  Handlers are modelled as functions
`ServerState → result × ServerState`: the returned state is the process
state after the handler, also on the error paths (Python exceptions do not
roll back global mutations already performed).
-/

namespace GeminiDemo

/-- Error taxonomy of the HTTP handlers (each `raise HTTPException` site). -/
inductive Err where
  | missingCredential
  | invalidCredential
  | noFilesProvided
  | ingestionTimeout (filename : String)
  | generationFailed (msg : String)
deriving DecidableEq, Repr

/-- HTTP status code each error is raised with in `src/main.py`. -/
def statusOf : Err → Nat
  | .missingCredential => 400
  | .invalidCredential => 400
  | .noFilesProvided => 400
  | .ingestionTimeout _ => 408
  | .generationFailed _ => 500

/-- The `genai.Client` object: determined by the api key it was built from. -/
structure Client where
  api_key : String
deriving DecidableEq, Repr

/-- A remote file-search store handle; the server-assigned name is modelled
as the value of a creation counter, so distinct creations give distinct
handles. -/
structure Store where
  name : Nat
deriving DecidableEq, Repr

/-- File bytes. -/
abbrev Bytes := List Nat

/-- Process-wide state of the app: the `GEMINI_API_KEY` environment entry,
the `client` and `file_search_store` globals, the contents of the flat
`uploads/` directory (filename-keyed), and logs of the remote calls made
(store creations, ingestion submissions as (store name, display name),
generation calls as (message, store name)). -/
structure ServerState where
  env_api_key : Option String
  client : Option Client
  file_search_store : Option Store
  storeCounter : Nat
  createCalls : Nat
  uploads : List (String × Bytes)
  submitted : List (Nat × String)
  genCalls : List (String × Nat)
deriving DecidableEq, Repr

/-- A fresh process whose environment holds `key` as `GEMINI_API_KEY`. -/
def initState (key : String) : ServerState :=
  { env_api_key := some key, client := none, file_search_store := none,
    storeCounter := 0, createCalls := 0, uploads := [], submitted := [],
    genCalls := [] }

/-- A fresh process with no externally supplied credential. -/
def init0 : ServerState :=
  { env_api_key := none, client := none, file_search_store := none,
    storeCounter := 0, createCalls := 0, uploads := [], submitted := [],
    genCalls := [] }

/-- Model of `open(path, "wb")` on the upload directory: overwrite the entry with
this filename, or append a new one. -/
def fsWrite : List (String × Bytes) → String → Bytes → List (String × Bytes)
  | [], name, content => [(name, content)]
  | (n, c) :: rest, name, content =>
    if n = name then (n, content) :: rest
    else (n, c) :: fsWrite rest name content

/-- Read back the content stored under `name` in the upload directory. -/
def fsLookup : List (String × Bytes) → String → Option Bytes
  | [], _ => none
  | (n, c) :: rest, name => if n = name then some c else fsLookup rest name

/-- Write a whole batch of files, in order, into the directory. -/
def writeAll (u : List (String × Bytes)) (files : List (String × Bytes)) :
    List (String × Bytes) :=
  files.foldl (fun acc p => fsWrite acc p.1 p.2) u

/-- Model of `get_client()`: return the cached client, else build one from the
environment key; `if not api_key` in Python is true both for an unset and
for an empty `GEMINI_API_KEY`, and raises the 400 "GEMINI_API_KEY not set"
error modelled as `Err.missingCredential`.  Its failure path performs no
mutation, so only the success state is returned. -/
def get_client (s : ServerState) : Except Err (Client × ServerState) :=
  match s.client with
  | some c => .ok (c, s)
  | none =>
    match s.env_api_key with
    | none => .error .missingCredential
    | some k =>
      if k = "" then .error .missingCredential
      else
        let c : Client := ⟨k⟩
        .ok (c, { s with client := some c })

/-- Model of `get_file_search_store()`: return the cached store, else create one
remotely (recording the creation call) and cache it. -/
def get_file_search_store (s : ServerState) :
    Except Err (Store × ServerState) :=
  match s.file_search_store with
  | some st => .ok (st, s)
  | none =>
    match get_client s with
    | .error e => .error e
    | .ok (_, s1) =>
      let st : Store := ⟨s1.storeCounter⟩
      .ok (st, { s1 with file_search_store := some st,
                         storeCounter := s1.storeCounter + 1,
                         createCalls := s1.createCalls + 1 })

/-- Handler `POST /set-api-key`: reset `client` and `file_search_store`, store the
key in the environment, then test-construct a client.  `constructFails`
is the oracle for whether `genai.Client(api_key=...)` raises; when it does
the handler answers 400 (`Err.invalidCredential`), but the resets and the
environment write have already happened. -/
def set_api_key (key : String) (constructFails : Bool) (s : ServerState) :
    Except Err Unit × ServerState :=
  let s1 := { s with client := none, file_search_store := none,
                     env_api_key := some key }
  if constructFails then (.error .invalidCredential, s1) else (.ok (), s1)

/-- The `while not operation.done` polling loop of `upload_files`.
`doneAfter` is the oracle: the number of `operations.get` refetches after
which the operation reports `done` (0 = done on submission).  `k` counts
refetches performed so far; each refetch is preceded by a 2-second sleep,
so the elapsed wall-clock time at the check is `2 * k`, tested against the
60-second timeout.  Returns the number of refetches on success. -/
def waitRec (doneAfter : Nat) (filename : String) (k : Nat) :
    Except Err Nat :=
  if doneAfter ≤ k then .ok k
  else if 2 * k > 60 then .error (.ingestionTimeout filename)
  else waitRec doneAfter filename (k + 1)
termination_by 31 - k
decreasing_by
  simp_wf
  omega

/-- The per-file loop body of `upload_files`: save the file locally
(overwriting), submit it for ingestion tagged with its filename, poll the
operation, and on completion continue with the next file; `i` indexes the
file within the batch (feeding the ingestion oracle), `count` is the
running `uploaded_count`. -/
def processFiles (st : Store) (oracle : Nat → Nat) :
    List (String × Bytes) → Nat → Nat → ServerState →
    Except Err Nat × ServerState
  | [], _, count, s => (.ok count, s)
  | (name, content) :: rest, i, count, s =>
    let s1 := { s with uploads := fsWrite s.uploads name content,
                       submitted := s.submitted ++ [(st.name, name)] }
    match waitRec (oracle i) name 0 with
    | .error e => (.error e, s1)
    | .ok _ => processFiles st oracle rest (i + 1) (count + 1) s1

/-- Handler `POST /upload`: reject an empty batch with 400 "No files provided",
else obtain the client and the store and run the per-file loop. -/
def upload_files (files : List (String × Bytes)) (oracle : Nat → Nat)
    (s : ServerState) : Except Err Nat × ServerState :=
  if files.isEmpty then (.error .noFilesProvided, s)
  else
    match get_client s with
    | .error e => (.error e, s)
    | .ok (_, s1) =>
      match get_file_search_store s1 with
      | .error e => (.error e, s1)
      | .ok (st, s2) => processFiles st oracle files 0 0 s2

/-- Handler `GET /files`: list the upload directory, reporting each filename with
its byte size. -/
def list_files (s : ServerState) : List (String × Nat) :=
  s.uploads.map (fun p => (p.1, p.2.length))

/-- Handler `POST /chat`: obtain the client and the store (creating the store if
needed), send the message to the generation endpoint restricted to that
store, and return the generated text; `gen` is the remote-generation
oracle, whose error surfaces as 500 (`Err.generationFailed`). -/
def chat (message : String) (gen : String → Nat → Except String String)
    (s : ServerState) : Except Err String × ServerState :=
  match get_client s with
  | .error e => (.error e, s)
  | .ok (_, s1) =>
    match get_file_search_store s1 with
    | .error e => (.error e, s1)
    | .ok (st, s2) =>
      let s3 := { s2 with genCalls := s2.genCalls ++ [(message, st.name)] }
      match gen message st.name with
      | .error m => (.error (.generationFailed m), s3)
      | .ok answer => (.ok answer, s3)

end GeminiDemo

namespace GeminiDemo

/-- One unfolding of the polling loop. -/
theorem waitRec_unfold (d : Nat) (f : String) (k : Nat) :
    waitRec d f k =
      if d ≤ k then .ok k
      else if 2 * k > 60 then .error (.ingestionTimeout f)
      else waitRec d f (k + 1) := by
  rw [waitRec]

/-- When the operation reports done within the deadline, the loop returns
the number of refetches performed. -/
theorem waitRec_done (d : Nat) (f : String) :
    ∀ n k, d - k ≤ n → k ≤ d → d ≤ 31 → waitRec d f k = .ok d := by
  intro n
  induction n with
  | zero =>
    intro k h1 h2 h3
    have hk : k = d := by omega
    subst hk
    rw [waitRec_unfold, if_pos (Nat.le_refl _)]
  | succ n ih =>
    intro k h1 h2 h3
    by_cases hkd : d ≤ k
    · have hk : k = d := by omega
      subst hk
      rw [waitRec_unfold, if_pos (Nat.le_refl _)]
    · rw [waitRec_unfold, if_neg hkd, if_neg (by omega : ¬ 2 * k > 60)]
      exact ih (k + 1) (by omega) (by omega) h3

/-- When the operation is not done within 31 refetches, the loop times
out with an `IngestionTimeout` naming the file. -/
theorem waitRec_timeout (d : Nat) (f : String) (hd : 32 ≤ d) :
    ∀ n k, 31 - k ≤ n → k ≤ 31 →
      waitRec d f k = .error (.ingestionTimeout f) := by
  intro n
  induction n with
  | zero =>
    intro k h1 h2
    have hk : k = 31 := by omega
    subst hk
    rw [waitRec_unfold, if_neg (by omega : ¬ d ≤ 31),
      if_pos (by omega : 2 * 31 > 60)]
  | succ n ih =>
    intro k h1 h2
    by_cases hk : k = 31
    · subst hk
      rw [waitRec_unfold, if_neg (by omega : ¬ d ≤ 31),
        if_pos (by omega : 2 * 31 > 60)]
    · rw [waitRec_unfold, if_neg (by omega : ¬ d ≤ k),
        if_neg (by omega : ¬ 2 * k > 60)]
      exact ih (k + 1) (by omega) (by omega)

end GeminiDemo

namespace GeminiDemo

/-- Writing a filename not yet present appends it at the end. -/
theorem fsWrite_not_mem (u : List (String × Bytes)) (name : String)
    (content : Bytes) (h : name ∉ u.map Prod.fst) :
    fsWrite u name content = u ++ [(name, content)] := by
  induction u with
  | nil => rfl
  | cons hd tl ih =>
    obtain ⟨n, c⟩ := hd
    simp only [List.map_cons, List.mem_cons, not_or] at h
    rw [fsWrite, if_neg (fun he => h.1 he.symm), ih h.2]
    rfl

/-- Writing a filename already present keeps the directory's filename list
unchanged. -/
theorem fsWrite_map_fst_mem (u : List (String × Bytes)) (name : String)
    (content : Bytes) (h : name ∈ u.map Prod.fst) :
    (fsWrite u name content).map Prod.fst = u.map Prod.fst := by
  induction u with
  | nil => simp at h
  | cons hd tl ih =>
    obtain ⟨n, c⟩ := hd
    by_cases hn : n = name
    · rw [fsWrite, if_pos hn]
      simp
    · simp only [List.map_cons, List.mem_cons] at h
      rcases h with h | h
      · exact absurd h.symm hn
      · rw [fsWrite, if_neg hn]
        simp only [List.map_cons, ih h]

/-- Reading back a filename just written returns the written content. -/
theorem fsLookup_fsWrite_self (u : List (String × Bytes)) (name : String)
    (content : Bytes) : fsLookup (fsWrite u name content) name = some content := by
  induction u with
  | nil => simp [fsWrite, fsLookup]
  | cons hd tl ih =>
    obtain ⟨n, c⟩ := hd
    by_cases hn : n = name
    · rw [fsWrite, if_pos hn, fsLookup, if_pos hn]
    · rw [fsWrite, if_neg hn, fsLookup, if_neg hn, ih]

/-- A successful lookup exhibits a directory entry. -/
theorem fsLookup_mem (u : List (String × Bytes)) (name : String)
    (content : Bytes) (h : fsLookup u name = some content) :
    (name, content) ∈ u := by
  induction u with
  | nil => simp [fsLookup] at h
  | cons hd tl ih =>
    obtain ⟨n, c⟩ := hd
    by_cases hn : n = name
    · rw [fsLookup, if_pos hn] at h
      subst hn
      cases h
      exact List.mem_cons_self _ _
    · rw [fsLookup, if_neg hn] at h
      exact List.mem_cons_of_mem _ (ih h)

/-- Writing a batch of pairwise-distinct filenames, none already present,
appends the batch in order. -/
theorem writeAll_disjoint (files : List (String × Bytes)) :
    ∀ u : List (String × Bytes), (files.map Prod.fst).Nodup →
    (∀ x ∈ files.map Prod.fst, x ∉ u.map Prod.fst) →
    writeAll u files = u ++ files := by
  induction files with
  | nil => intro u _ _; simp [writeAll]
  | cons hd tl ih =>
    intro u hnd hdisj
    obtain ⟨n, c⟩ := hd
    simp only [List.map_cons, List.nodup_cons] at hnd
    have hwrite : fsWrite u n c = u ++ [(n, c)] :=
      fsWrite_not_mem u n c (hdisj n (by simp))
    have hstep : writeAll u ((n, c) :: tl) = writeAll (fsWrite u n c) tl := rfl
    rw [hstep, hwrite, ih (u ++ [(n, c)]) hnd.2]
    · simp
    · intro x hx
      simp only [List.map_append, List.map_cons, List.map_nil,
        List.mem_append, List.mem_singleton, not_or]
      exact ⟨fun hc => hdisj x (by simp [hx]) hc,
        fun hc => hnd.1 (hc ▸ hx)⟩

end GeminiDemo

namespace GeminiDemo

/-- A cached client is returned unchanged. -/
theorem get_client_cached (s : ServerState) (c : Client)
    (h : s.client = some c) : get_client s = .ok (c, s) := by
  simp [get_client, h]

/-- With no cached client and a non-empty environment key, a client is
built from the key and cached; nothing else changes. -/
theorem get_client_fresh (s : ServerState) (key : String)
    (hc : s.client = none) (he : s.env_api_key = some key) (hk : key ≠ "") :
    get_client s = .ok (⟨key⟩, { s with client := some ⟨key⟩ }) := by
  simp [get_client, hc, he, hk]

/-- A successful `get_client` only ever sets the `client` field. -/
theorem get_client_fields (s : ServerState) (c : Client) (s1 : ServerState)
    (h : get_client s = .ok (c, s1)) :
    s1 = { s with client := some c } := by
  unfold get_client at h
  split at h
  case _ c0 hc =>
    simp only [Except.ok.injEq, Prod.mk.injEq] at h
    obtain ⟨h1, h2⟩ := h
    subst h1
    subst h2
    cases s
    simp_all
  case _ hc =>
    split at h
    · cases h
    case _ k he =>
      split at h
      · cases h
      · simp only [Except.ok.injEq, Prod.mk.injEq] at h
        obtain ⟨h1, h2⟩ := h
        subst h1
        subst h2
        simp [he]

/-- A cached store handle is returned unchanged. -/
theorem gfss_cached (s : ServerState) (st : Store)
    (h : s.file_search_store = some st) :
    get_file_search_store s = .ok (st, s) := by
  simp [get_file_search_store, h]

/-- First store access with a cached client: a store named by the current
counter is created remotely, cached, and the creation is recorded. -/
theorem gfss_fresh (s : ServerState) (c : Client)
    (hst : s.file_search_store = none) (hc : s.client = some c) :
    get_file_search_store s =
      .ok (⟨s.storeCounter⟩,
        { s with file_search_store := some ⟨s.storeCounter⟩,
                 storeCounter := s.storeCounter + 1,
                 createCalls := s.createCalls + 1 }) := by
  simp [get_file_search_store, hst, get_client_cached s c hc]

/-- First store access with no cached client but a usable key: the client
is built first, then the store is created and cached. -/
theorem gfss_fresh_fresh_client (s : ServerState) (key : String)
    (hst : s.file_search_store = none) (hc : s.client = none)
    (he : s.env_api_key = some key) (hk : key ≠ "") :
    get_file_search_store s =
      .ok (⟨s.storeCounter⟩,
        { s with client := some ⟨key⟩,
                 file_search_store := some ⟨s.storeCounter⟩,
                 storeCounter := s.storeCounter + 1,
                 createCalls := s.createCalls + 1 }) := by
  simp [get_file_search_store, hst, get_client_fresh s key hc he hk]

end GeminiDemo

namespace GeminiDemo

/-- When every operation in the batch completes within the deadline, the
per-file loop writes every file in order, submits every file in order, and
returns the incremented counter. -/
theorem processFiles_all_done (st : Store) (oracle : Nat → Nat)
    (files : List (String × Bytes)) :
    ∀ i count s, (∀ j, j < files.length → oracle (i + j) ≤ 31) →
    processFiles st oracle files i count s =
      (.ok (count + files.length),
       { s with uploads := writeAll s.uploads files,
                submitted :=
                  s.submitted ++ files.map (fun p => (st.name, p.1)) }) := by
  induction files with
  | nil =>
    intro i count s _
    simp [processFiles, writeAll]
  | cons hd tl ih =>
    intro i count s h
    obtain ⟨name, content⟩ := hd
    have h0 : oracle i ≤ 31 := by
      have := h 0 (by simp)
      simpa using this
    have hw := waitRec_done (oracle i) name (oracle i) 0 (by omega)
      (by omega) h0
    simp only [processFiles, hw]
    rw [ih (i + 1) (count + 1) _ (fun j hj => by
      have := h (j + 1) (by simpa using Nat.succ_lt_succ hj)
      have harg : i + (j + 1) = i + 1 + j := by omega
      rw [harg] at this
      exact this)]
    have hlen : count + 1 + tl.length = count + (tl.length + 1) := by omega
    have hwr : writeAll (fsWrite s.uploads name content) tl =
        writeAll s.uploads ((name, content) :: tl) := rfl
    simp [hlen, hwr, List.append_assoc]

end GeminiDemo

namespace GeminiDemo

/-- When the operation of the file at index `k` misses the deadline while
all earlier ones complete, the per-file loop stops at that file: the first
`k + 1` files have been written and submitted, nothing further happens,
and the error names the file at index `k`. -/
theorem processFiles_timeout (st : Store) (oracle : Nat → Nat) :
    ∀ (files : List (String × Bytes)) (k : Nat) (name : String)
      (content : Bytes), files[k]? = some (name, content) →
    ∀ i count s, (∀ j, j < k → oracle (i + j) ≤ 31) → 32 ≤ oracle (i + k) →
    processFiles st oracle files i count s =
      (.error (.ingestionTimeout name),
       { s with uploads := writeAll s.uploads (files.take (k + 1)),
                submitted := s.submitted ++
                  (files.take (k + 1)).map (fun p => (st.name, p.1)) }) := by
  intro files
  induction files with
  | nil =>
    intro k name content hk
    simp at hk
  | cons hd tl ih =>
    intro k name content hk i count s hbefore htimeout
    obtain ⟨n, c⟩ := hd
    cases k with
    | zero =>
      simp only [List.getElem?_cons_zero, Option.some.injEq,
        Prod.mk.injEq] at hk
      obtain ⟨h1, h2⟩ := hk
      subst h1
      subst h2
      have h32 : 32 ≤ oracle i := by simpa using htimeout
      have hw := waitRec_timeout (oracle i) n h32 31 0 (by omega) (by omega)
      simp only [processFiles, hw]
      simp [writeAll]
    | succ k =>
      have h0 : oracle i ≤ 31 := by
        have := hbefore 0 (by omega)
        simpa using this
      have hw := waitRec_done (oracle i) n (oracle i) 0 (by omega)
        (by omega) h0
      simp only [processFiles, hw]
      rw [ih k name content (by simpa using hk) (i + 1) (count + 1) _
        (fun j hj => by
          have := hbefore (j + 1) (by omega)
          have harg : i + (j + 1) = i + 1 + j := by omega
          rw [harg] at this
          exact this)
        (by
          have harg : i + (k + 1) = i + 1 + k := by omega
          rw [harg] at htimeout
          exact htimeout)]
      have hwr : writeAll (fsWrite s.uploads n c) (tl.take (k + 1)) =
          writeAll s.uploads (((n, c) :: tl).take (k + 2)) := rfl
      simp [hwr, List.append_assoc]

end GeminiDemo

namespace GeminiDemo

/-- C3: Calling the upload operation with an empty set of files fails with
`NoFilesProvided` (HTTP 400) and performs no filesystem writes and no
remote calls: the whole process state — upload directory, credential,
client, index handle, and all remote-call logs — is returned unchanged. -/
theorem upload_empty_rejected (oracle : Nat → Nat) (s : ServerState) :
    upload_files [] oracle s = (.error .noFilesProvided, s) ∧
    statusOf .noFilesProvided = 400 :=
  ⟨rfl, rfl⟩

/-- C4: The ingestion wait loop always terminates: polling from elapsed
time zero with 2-second sleeps, either the completion flag is observed
within the 60-second deadline (at most 31 refetches, elapsed at most 62)
and the loop succeeds, or the deadline is exceeded and the loop fails with
`IngestionTimeout` naming the file; there is no third, unbounded outcome. -/
theorem ingestion_wait_terminates (doneAfter : Nat) (f : String) :
    (doneAfter ≤ 31 ∧ waitRec doneAfter f 0 = .ok doneAfter ∧
      2 * doneAfter ≤ 62) ∨
    (32 ≤ doneAfter ∧ waitRec doneAfter f 0 = .error (.ingestionTimeout f)) := by
  by_cases h : doneAfter ≤ 31
  · exact .inl ⟨h, waitRec_done doneAfter f doneAfter 0 (by omega)
      (by omega) h, by omega⟩
  · exact .inr ⟨by omega, waitRec_timeout doneAfter f (by omega) 31 0
      (by omega) (by omega)⟩

/-- C10: `set-api-key` is not atomic on failure: when the validation
client construction raises, the handler returns `InvalidCredential`
(HTTP 400), yet the cached client and the store handle have already been
discarded and the new (invalid) key is already stored in the environment
as the active credential — the prior working state is not restored. -/
theorem set_api_key_not_atomic (s : ServerState) (key : String) :
    set_api_key key true s =
      (.error .invalidCredential,
       { s with client := none, file_search_store := none,
                env_api_key := some key }) ∧
    statusOf .invalidCredential = 400 ∧
    (set_api_key key true s).2.client = none ∧
    (set_api_key key true s).2.file_search_store = none ∧
    (set_api_key key true s).2.env_api_key = some key :=
  ⟨rfl, rfl, rfl, rfl, rfl⟩

end GeminiDemo

namespace GeminiDemo

/-- C1: Uploading, on a fresh process holding a usable credential, a
non-empty batch of files with pairwise-distinct names whose ingestion
operations all complete within the deadline returns success with
`uploaded = N`, and a subsequent `listFiles` lists exactly those N
filenames, each with size equal to the byte length of the corresponding
input content. -/
theorem upload_then_list_exact (files : List (String × Bytes)) (key : String)
    (oracle : Nat → Nat) (hne : files ≠ []) (hkey : key ≠ "")
    (hnd : (files.map Prod.fst).Nodup)
    (hdone : ∀ i, i < files.length → oracle i ≤ 31) :
    upload_files files oracle (initState key) =
      (.ok files.length,
       { env_api_key := some key, client := some ⟨key⟩,
         file_search_store := some ⟨0⟩, storeCounter := 1, createCalls := 1,
         uploads := files,
         submitted := files.map (fun p => (0, p.1)), genCalls := [] }) ∧
    list_files (upload_files files oracle (initState key)).2 =
      files.map (fun p => (p.1, p.2.length)) := by
  rcases files with _ | ⟨f, fs⟩
  · exact absurd rfl hne
  have hcl : get_client
      { env_api_key := some key, client := none, file_search_store := none,
        storeCounter := 0, createCalls := 0, uploads := [], submitted := [],
        genCalls := [] } =
      .ok ((⟨key⟩ : Client),
        { env_api_key := some key, client := some ⟨key⟩,
          file_search_store := none, storeCounter := 0, createCalls := 0,
          uploads := [], submitted := [], genCalls := [] }) :=
    get_client_fresh _ key rfl rfl hkey
  have hst : get_file_search_store
      { env_api_key := some key, client := some ⟨key⟩,
        file_search_store := none, storeCounter := 0, createCalls := 0,
        uploads := [], submitted := [], genCalls := [] } =
      .ok ((⟨0⟩ : Store),
        { env_api_key := some key, client := some ⟨key⟩,
          file_search_store := some ⟨0⟩, storeCounter := 1, createCalls := 1,
          uploads := [], submitted := [], genCalls := [] }) :=
    gfss_fresh _ ⟨key⟩ rfl rfl
  have hproc := processFiles_all_done (⟨0⟩ : Store) oracle (f :: fs) 0 0
      { env_api_key := some key, client := some ⟨key⟩,
        file_search_store := some ⟨0⟩, storeCounter := 1, createCalls := 1,
        uploads := [], submitted := [], genCalls := [] }
      (fun j hj => by simpa using hdone j hj)
  have hwr : writeAll ([] : List (String × Bytes)) (f :: fs) = f :: fs := by
    have := writeAll_disjoint (f :: fs) [] hnd (by simp)
    simpa using this
  have hmain : upload_files (f :: fs) oracle (initState key) =
      (.ok (f :: fs).length,
       { env_api_key := some key, client := some ⟨key⟩,
         file_search_store := some ⟨0⟩, storeCounter := 1, createCalls := 1,
         uploads := f :: fs,
         submitted := (f :: fs).map (fun p => (0, p.1)), genCalls := [] }) := by
    simp only [upload_files, List.isEmpty_cons, Bool.false_eq_true,
      if_false, initState, hcl, hst]
    rw [hproc]
    simp only [hwr]
    simp
  exact ⟨hmain, by rw [hmain]; simp [list_files]⟩

/-- Witness for C1 at a concrete two-file batch. -/
theorem upload_then_list_exact_witness :
    upload_files [("a.txt", [1, 2]), ("b.txt", [3])] (fun _ => 0)
        (initState "k") =
      (.ok 2,
       { env_api_key := some "k", client := some ⟨"k"⟩,
         file_search_store := some ⟨0⟩, storeCounter := 1, createCalls := 1,
         uploads := [("a.txt", [1, 2]), ("b.txt", [3])],
         submitted := [(0, "a.txt"), (0, "b.txt")], genCalls := [] }) ∧
    list_files (upload_files [("a.txt", [1, 2]), ("b.txt", [3])]
        (fun _ => 0) (initState "k")).2 =
      [("a.txt", 2), ("b.txt", 1)] :=
  upload_then_list_exact [("a.txt", [1, 2]), ("b.txt", [3])] "k" (fun _ => 0)
    (List.cons_ne_nil _ _) (by decide) (by decide)
    (fun i _ => Nat.zero_le 31)

end GeminiDemo

namespace GeminiDemo

/-- C2: On a fresh process with a usable credential, if in a batch with
pairwise-distinct names the ingestion of the file at index `k` misses the
deadline while all earlier ones complete, the upload fails with
`IngestionTimeout` naming that file (HTTP 408); exactly the files up to
and including index `k` have been written locally (so files before `k`
remain, with no rollback) and submitted for ingestion, and every file
after index `k` was never written locally nor submitted. -/
theorem upload_timeout_aborts_batch (files : List (String × Bytes))
    (key : String) (oracle : Nat → Nat) (k : Nat) (name : String)
    (content : Bytes) (hkey : key ≠ "")
    (hk : files[k]? = some (name, content))
    (hnd : (files.map Prod.fst).Nodup)
    (hbefore : ∀ j, j < k → oracle j ≤ 31) (htimeout : 32 ≤ oracle k) :
    upload_files files oracle (initState key) =
      (.error (.ingestionTimeout name),
       { env_api_key := some key, client := some ⟨key⟩,
         file_search_store := some ⟨0⟩, storeCounter := 1, createCalls := 1,
         uploads := files.take (k + 1),
         submitted := (files.take (k + 1)).map (fun p => (0, p.1)),
         genCalls := [] }) ∧
    statusOf (.ingestionTimeout name) = 408 ∧
    (∀ j n2 c2, k < j → files[j]? = some (n2, c2) →
      n2 ∉ (files.take (k + 1)).map Prod.fst) := by
  rcases files with _ | ⟨f, fs⟩
  · simp at hk
  have hcl : get_client
      { env_api_key := some key, client := none, file_search_store := none,
        storeCounter := 0, createCalls := 0, uploads := [], submitted := [],
        genCalls := [] } =
      .ok ((⟨key⟩ : Client),
        { env_api_key := some key, client := some ⟨key⟩,
          file_search_store := none, storeCounter := 0, createCalls := 0,
          uploads := [], submitted := [], genCalls := [] }) :=
    get_client_fresh _ key rfl rfl hkey
  have hst : get_file_search_store
      { env_api_key := some key, client := some ⟨key⟩,
        file_search_store := none, storeCounter := 0, createCalls := 0,
        uploads := [], submitted := [], genCalls := [] } =
      .ok ((⟨0⟩ : Store),
        { env_api_key := some key, client := some ⟨key⟩,
          file_search_store := some ⟨0⟩, storeCounter := 1, createCalls := 1,
          uploads := [], submitted := [], genCalls := [] }) :=
    gfss_fresh _ ⟨key⟩ rfl rfl
  have hproc := processFiles_timeout (⟨0⟩ : Store) oracle (f :: fs) k name
      content hk 0 0
      { env_api_key := some key, client := some ⟨key⟩,
        file_search_store := some ⟨0⟩, storeCounter := 1, createCalls := 1,
        uploads := [], submitted := [], genCalls := [] }
      (fun j hj => by simpa using hbefore j hj) (by simpa using htimeout)
  have hndtake : (((f :: fs).take (k + 1)).map Prod.fst).Nodup := by
    have heq : ((f :: fs).take (k + 1)).map Prod.fst =
        ((f :: fs).map Prod.fst).take (k + 1) := by
      simp [List.map_take]
    rw [heq]
    exact List.Nodup.sublist (List.take_sublist _ _) hnd
  have hwr : writeAll ([] : List (String × Bytes)) ((f :: fs).take (k + 1)) =
      (f :: fs).take (k + 1) := by
    have := writeAll_disjoint ((f :: fs).take (k + 1)) [] hndtake (by simp)
    simpa using this
  have hmain : upload_files (f :: fs) oracle (initState key) =
      (.error (.ingestionTimeout name),
       { env_api_key := some key, client := some ⟨key⟩,
         file_search_store := some ⟨0⟩, storeCounter := 1, createCalls := 1,
         uploads := (f :: fs).take (k + 1),
         submitted := ((f :: fs).take (k + 1)).map (fun p => (0, p.1)),
         genCalls := [] }) := by
    simp only [upload_files, List.isEmpty_cons, Bool.false_eq_true,
      if_false, initState, hcl, hst]
    rw [hproc]
    simp only [hwr]
    simp
  refine ⟨hmain, rfl, ?_⟩
  intro j n2 c2 hkj hj
  have hmem : n2 ∈ ((f :: fs).map Prod.fst).drop (k + 1) := by
    have hget : (((f :: fs).map Prod.fst).drop (k + 1))[j - (k + 1)]? =
        ((f :: fs).map Prod.fst)[j]? := by
      rw [List.getElem?_drop]
      congr 1
      omega
    have hj' : ((f :: fs).map Prod.fst)[j]? = some n2 := by
      rw [List.getElem?_map, hj]
      rfl
    have hsome := hget.trans hj'
    rw [List.getElem?_eq_some] at hsome
    obtain ⟨hlt, he⟩ := hsome
    exact he ▸ List.getElem_mem hlt
  have hsplit := List.take_append_drop (k + 1) ((f :: fs).map Prod.fst)
  have hdisj : (((f :: fs).map Prod.fst).take (k + 1)).Disjoint
      (((f :: fs).map Prod.fst).drop (k + 1)) := by
    have := hsplit ▸ hnd
    exact (List.nodup_append.mp this).2.2
  intro hcontra
  have hcontra' : n2 ∈ ((f :: fs).map Prod.fst).take (k + 1) := by
    have : ((f :: fs).take (k + 1)).map Prod.fst =
        ((f :: fs).map Prod.fst).take (k + 1) := by
      simp [List.map_take]
    rwa [this] at hcontra
  exact hdisj hcontra' hmem

end GeminiDemo

namespace GeminiDemo

/-- Witness for C2: in a concrete three-file batch the second file's
ingestion misses the deadline; the batch aborts naming it, the first two
files are on disk and submitted, the third was never touched. -/
theorem upload_timeout_aborts_batch_witness :
    upload_files [("a", [1]), ("b", [2, 3]), ("c", [4])] (fun j => 32 * j)
        (initState "k") =
      (.error (.ingestionTimeout "b"),
       { env_api_key := some "k", client := some ⟨"k"⟩,
         file_search_store := some ⟨0⟩, storeCounter := 1, createCalls := 1,
         uploads := [("a", [1]), ("b", [2, 3])],
         submitted := [(0, "a"), (0, "b")], genCalls := [] }) ∧
    statusOf (.ingestionTimeout "b") = 408 :=
  ⟨(upload_timeout_aborts_batch [("a", [1]), ("b", [2, 3]), ("c", [4])]
      "k" (fun j => 32 * j) 1 "b" [2, 3] (by decide) rfl (by decide)
      (fun j hj => by show 32 * j ≤ 31; omega)
      (by show 32 ≤ 32 * 1; omega)).1,
   (upload_timeout_aborts_batch [("a", [1]), ("b", [2, 3]), ("c", [4])]
      "k" (fun j => 32 * j) 1 "b" [2, 3] (by decide) rfl (by decide)
      (fun j hj => by show 32 * j ≤ 31; omega)
      (by show 32 ≤ 32 * 1; omega)).2.1⟩

end GeminiDemo

namespace GeminiDemo

/-- A successful `get_client` followed by a store miss creates the store
under the then-current counter, whatever the starting state was. -/
theorem gfss_fresh_general (s : ServerState) (c : Client) (s1 : ServerState)
    (hst : s.file_search_store = none) (hcl : get_client s = .ok (c, s1)) :
    get_file_search_store s =
      .ok (⟨s.storeCounter⟩,
        { s with client := some c,
                 file_search_store := some ⟨s.storeCounter⟩,
                 storeCounter := s.storeCounter + 1,
                 createCalls := s.createCalls + 1 }) := by
  have hs1 := get_client_fields s c s1 hcl
  simp [get_file_search_store, hst, hcl, hs1]

/-- C6: `getOrCreateIndex` is idempotent: with a handle already cached it
is returned with the whole state unchanged (no creation request); on the
first call it requests exactly one remote creation, caches the handle,
and an immediately following call returns the same cached handle with the
state — in particular the creation-call count — unchanged. -/
theorem store_creation_idempotent :
    (∀ (s : ServerState) (st : Store), s.file_search_store = some st →
      get_file_search_store s = .ok (st, s)) ∧
    (∀ (s s1 : ServerState) (c : Client), s.file_search_store = none →
      get_client s = .ok (c, s1) →
      get_file_search_store s =
        .ok (⟨s.storeCounter⟩,
          { s with client := some c,
                   file_search_store := some ⟨s.storeCounter⟩,
                   storeCounter := s.storeCounter + 1,
                   createCalls := s.createCalls + 1 }) ∧
      get_file_search_store
          { s with client := some c,
                   file_search_store := some ⟨s.storeCounter⟩,
                   storeCounter := s.storeCounter + 1,
                   createCalls := s.createCalls + 1 } =
        .ok (⟨s.storeCounter⟩,
          { s with client := some c,
                   file_search_store := some ⟨s.storeCounter⟩,
                   storeCounter := s.storeCounter + 1,
                   createCalls := s.createCalls + 1 })) := by
  refine ⟨fun s st h => gfss_cached s st h, ?_⟩
  intro s s1 c hst hcl
  exact ⟨gfss_fresh_general s c s1 hst hcl, gfss_cached _ _ rfl⟩

/-- Witness for C6 at a concrete state: a first call creates store 5 and
bumps the creation count from 2 to 3; the second call is a no-op. -/
theorem store_creation_idempotent_witness :
    get_file_search_store
        { env_api_key := some "k", client := some ⟨"k"⟩,
          file_search_store := none, storeCounter := 5, createCalls := 2,
          uploads := [], submitted := [], genCalls := [] } =
      .ok (⟨5⟩,
        { env_api_key := some "k", client := some ⟨"k"⟩,
          file_search_store := some ⟨5⟩, storeCounter := 6, createCalls := 3,
          uploads := [], submitted := [], genCalls := [] }) ∧
    get_file_search_store
        { env_api_key := some "k", client := some ⟨"k"⟩,
          file_search_store := some ⟨5⟩, storeCounter := 6, createCalls := 3,
          uploads := [], submitted := [], genCalls := [] } =
      .ok (⟨5⟩,
        { env_api_key := some "k", client := some ⟨"k"⟩,
          file_search_store := some ⟨5⟩, storeCounter := 6, createCalls := 3,
          uploads := [], submitted := [], genCalls := [] }) :=
  store_creation_idempotent.2
    { env_api_key := some "k", client := some ⟨"k"⟩,
      file_search_store := none, storeCounter := 5, createCalls := 2,
      uploads := [], submitted := [], genCalls := [] }
    { env_api_key := some "k", client := some ⟨"k"⟩,
      file_search_store := none, storeCounter := 5, createCalls := 2,
      uploads := [], submitted := [], genCalls := [] }
    ⟨"k"⟩ rfl rfl

/-- C7: after `set-api-key` (validation succeeding or not) the cached
client and store handle are discarded, and the next store access creates
a fresh remote index under the new credential: the handle it returns is
distinct from the previously cached one and a new creation call is made
with a client built from the new key. -/
theorem set_credential_resets_store (s : ServerState) (old : Store)
    (key : String) (constructFails : Bool)
    (_hold : s.file_search_store = some old)
    (hcnt : old.name < s.storeCounter) (hkey : key ≠ "") :
    (set_api_key key constructFails s).2.client = none ∧
    (set_api_key key constructFails s).2.file_search_store = none ∧
    get_file_search_store (set_api_key key constructFails s).2 =
      .ok (⟨s.storeCounter⟩,
        { s with env_api_key := some key, client := some ⟨key⟩,
                 file_search_store := some ⟨s.storeCounter⟩,
                 storeCounter := s.storeCounter + 1,
                 createCalls := s.createCalls + 1 }) ∧
    (⟨s.storeCounter⟩ : Store) ≠ old := by
  have h2 : (set_api_key key constructFails s).2 =
      { s with client := none, file_search_store := none,
               env_api_key := some key } := by
    cases constructFails <;> rfl
  refine ⟨by rw [h2], by rw [h2], ?_, ?_⟩
  · rw [h2]
    exact gfss_fresh_fresh_client
      { s with client := none, file_search_store := none,
               env_api_key := some key } key rfl rfl rfl hkey
  · intro he
    have hn : s.storeCounter = old.name := congrArg Store.name he
    omega

/-- Witness for C7: with store 0 cached under key "a", switching to key
"b" discards it and the next access creates the distinct store 1. -/
theorem set_credential_resets_store_witness :
    (set_api_key "b" false
        { env_api_key := some "a", client := some ⟨"a"⟩,
          file_search_store := some ⟨0⟩, storeCounter := 1, createCalls := 1,
          uploads := [], submitted := [], genCalls := [] }).2.client = none ∧
    (set_api_key "b" false
        { env_api_key := some "a", client := some ⟨"a"⟩,
          file_search_store := some ⟨0⟩, storeCounter := 1, createCalls := 1,
          uploads := [], submitted := [], genCalls := [] }).2.file_search_store
      = none ∧
    get_file_search_store (set_api_key "b" false
        { env_api_key := some "a", client := some ⟨"a"⟩,
          file_search_store := some ⟨0⟩, storeCounter := 1, createCalls := 1,
          uploads := [], submitted := [], genCalls := [] }).2 =
      .ok (⟨1⟩,
        { env_api_key := some "b", client := some ⟨"b"⟩,
          file_search_store := some ⟨1⟩, storeCounter := 2, createCalls := 2,
          uploads := [], submitted := [], genCalls := [] }) ∧
    (⟨1⟩ : Store) ≠ (⟨0⟩ : Store) :=
  set_credential_resets_store
    { env_api_key := some "a", client := some ⟨"a"⟩,
      file_search_store := some ⟨0⟩, storeCounter := 1, createCalls := 1,
      uploads := [], submitted := [], genCalls := [] }
    ⟨0⟩ "b" false rfl (by decide) (by decide)

end GeminiDemo

namespace GeminiDemo

/-- Uploading a single file on a state with cached client and store,
with its ingestion completing in time, writes the file (overwriting any
same-named entry), records the submission, and reports one upload. -/
theorem upload_single_cached (s : ServerState) (cl : Client) (st : Store)
    (name : String) (content : Bytes) (oracle : Nat → Nat)
    (hc : s.client = some cl) (hst : s.file_search_store = some st)
    (hdone : oracle 0 ≤ 31) :
    upload_files [(name, content)] oracle s =
      (.ok 1, { s with uploads := fsWrite s.uploads name content,
                       submitted := s.submitted ++ [(st.name, name)] }) := by
  have hcl := get_client_cached s cl hc
  have hstc := gfss_cached s st hst
  have hw := waitRec_done (oracle 0) name (oracle 0) 0 (by omega)
    (by omega) hdone
  simp only [upload_files, List.isEmpty_cons, Bool.false_eq_true, if_false,
    hcl, hstc]
  simp only [processFiles, hw]

/-- C8: re-uploading a file whose name equals that of a previously
uploaded file succeeds and overwrites the earlier local entry: the stored
content under that filename becomes the new content, the directory's
filename list is unchanged (filename is the unique key, last write wins),
and `listFiles` reports the new size for that filename. -/
theorem reupload_overwrites (s : ServerState) (cl : Client) (st : Store)
    (name : String) (c1 c2 : Bytes) (oracle : Nat → Nat)
    (hc : s.client = some cl) (hst : s.file_search_store = some st)
    (hmem : (name, c1) ∈ s.uploads) (hdone : oracle 0 ≤ 31) :
    (upload_files [(name, c2)] oracle s).1 = .ok 1 ∧
    fsLookup (upload_files [(name, c2)] oracle s).2.uploads name = some c2 ∧
    (upload_files [(name, c2)] oracle s).2.uploads.map Prod.fst =
      s.uploads.map Prod.fst ∧
    (name, c2.length) ∈ list_files (upload_files [(name, c2)] oracle s).2 := by
  have hup := upload_single_cached s cl st name c2 oracle hc hst hdone
  have hmemf : name ∈ s.uploads.map Prod.fst :=
    List.mem_map.mpr ⟨(name, c1), hmem, rfl⟩
  refine ⟨by rw [hup], ?_, ?_, ?_⟩
  · rw [hup]
    exact fsLookup_fsWrite_self _ _ _
  · rw [hup]
    exact fsWrite_map_fst_mem _ _ _ hmemf
  · rw [hup]
    have hm : (name, c2) ∈ fsWrite s.uploads name c2 :=
      fsLookup_mem _ _ _ (fsLookup_fsWrite_self _ _ _)
    exact List.mem_map.mpr ⟨(name, c2), hm, rfl⟩

/-- Witness for C8: re-uploading "a.txt" with one byte over a three-byte
copy leaves a single entry of the new size. -/
theorem reupload_overwrites_witness :
    (upload_files [("a.txt", [9])] (fun _ => 0)
        { env_api_key := some "k", client := some ⟨"k"⟩,
          file_search_store := some ⟨0⟩, storeCounter := 1, createCalls := 1,
          uploads := [("a.txt", [1, 2, 3])], submitted := [(0, "a.txt")],
          genCalls := [] }).1 = .ok 1 ∧
    fsLookup (upload_files [("a.txt", [9])] (fun _ => 0)
        { env_api_key := some "k", client := some ⟨"k"⟩,
          file_search_store := some ⟨0⟩, storeCounter := 1, createCalls := 1,
          uploads := [("a.txt", [1, 2, 3])], submitted := [(0, "a.txt")],
          genCalls := [] }).2.uploads "a.txt" = some [9] ∧
    (upload_files [("a.txt", [9])] (fun _ => 0)
        { env_api_key := some "k", client := some ⟨"k"⟩,
          file_search_store := some ⟨0⟩, storeCounter := 1, createCalls := 1,
          uploads := [("a.txt", [1, 2, 3])], submitted := [(0, "a.txt")],
          genCalls := [] }).2.uploads.map Prod.fst = ["a.txt"] ∧
    ("a.txt", 1) ∈ list_files (upload_files [("a.txt", [9])] (fun _ => 0)
        { env_api_key := some "k", client := some ⟨"k"⟩,
          file_search_store := some ⟨0⟩, storeCounter := 1, createCalls := 1,
          uploads := [("a.txt", [1, 2, 3])], submitted := [(0, "a.txt")],
          genCalls := [] }).2 :=
  reupload_overwrites
    { env_api_key := some "k", client := some ⟨"k"⟩,
      file_search_store := some ⟨0⟩, storeCounter := 1, createCalls := 1,
      uploads := [("a.txt", [1, 2, 3])], submitted := [(0, "a.txt")],
      genCalls := [] }
    ⟨"k"⟩ ⟨0⟩ "a.txt" [1, 2, 3] [9] (fun _ => 0) rfl rfl
    (List.mem_cons_self _ _) (Nat.zero_le 31)

end GeminiDemo

namespace GeminiDemo

/-- Counterexample to C5 as stated: setting the credential to the empty
string succeeds (construction not raising), the credential is stored, yet
`getClient` — and therefore a subsequent chat — still fails with
`MissingCredential`, because `if not api_key` in Python treats the empty
string like an unset variable.  So "fails iff no credential has been set"
is false, as is "after setting a credential, a query does not fail with
MissingCredential". -/
theorem missing_credential_iff_cex :
    (set_api_key "" false init0).1 = .ok () ∧
    (set_api_key "" false init0).2.env_api_key = some "" ∧
    get_client (set_api_key "" false init0).2 = .error .missingCredential ∧
    (chat "hi" (fun _ _ => .ok "answer") (set_api_key "" false init0).2).1 =
      .error .missingCredential ∧
    (set_api_key "" true init0).2.env_api_key = some "" ∧
    get_client (set_api_key "" true init0).2 = .error .missingCredential :=
  ⟨rfl, rfl, rfl, rfl, rfl, rfl⟩

/-- C5 (amended): `getClient` fails with `MissingCredential` iff there is
no cached client and the stored credential is absent or empty; and after
setting a NON-EMPTY credential, a chat issued without any prior upload
does not fail with `MissingCredential`: it lazily creates the index and
returns the generated answer. -/
theorem get_client_missing_iff_amended :
    (∀ s : ServerState,
      get_client s = .error .missingCredential ↔
        s.client = none ∧
          (s.env_api_key = none ∨ s.env_api_key = some "")) ∧
    (∀ (key msg answer : String) (gen : String → Nat → Except String String),
      key ≠ "" → gen msg 0 = .ok answer →
      chat msg gen (set_api_key key false init0).2 =
        (.ok answer,
         { env_api_key := some key, client := some ⟨key⟩,
           file_search_store := some ⟨0⟩, storeCounter := 1,
           createCalls := 1, uploads := [], submitted := [],
           genCalls := [(msg, 0)] })) := by
  constructor
  · intro s
    rcases s with ⟨env, cl, fss, sc, cc, up, sub, gc⟩
    cases cl with
    | some c => simp [get_client]
    | none =>
      cases env with
      | none => simp [get_client]
      | some k =>
        by_cases hk : k = ""
        · subst hk
          simp [get_client]
        · simp [get_client, hk]
  · intro key msg answer gen hkey hgen
    have hcl : get_client
        { env_api_key := some key, client := none, file_search_store := none,
          storeCounter := 0, createCalls := 0, uploads := [],
          submitted := [], genCalls := [] } =
        .ok ((⟨key⟩ : Client),
          { env_api_key := some key, client := some ⟨key⟩,
            file_search_store := none, storeCounter := 0, createCalls := 0,
            uploads := [], submitted := [], genCalls := [] }) :=
      get_client_fresh _ key rfl rfl hkey
    have hst : get_file_search_store
        { env_api_key := some key, client := some ⟨key⟩,
          file_search_store := none, storeCounter := 0, createCalls := 0,
          uploads := [], submitted := [], genCalls := [] } =
        .ok ((⟨0⟩ : Store),
          { env_api_key := some key, client := some ⟨key⟩,
            file_search_store := some ⟨0⟩, storeCounter := 1,
            createCalls := 1, uploads := [], submitted := [],
            genCalls := [] }) :=
      gfss_fresh _ ⟨key⟩ rfl rfl
    have hs2 : (set_api_key key false init0).2 =
        { env_api_key := some key, client := none, file_search_store := none,
          storeCounter := 0, createCalls := 0, uploads := [],
          submitted := [], genCalls := [] } := rfl
    rw [hs2]
    simp only [chat, hcl, hst]
    simp [hgen]

/-- Witness for the amended C5 at a concrete non-empty key. -/
theorem get_client_missing_iff_amended_witness :
    chat "hi" (fun _ _ => .ok "answer") (set_api_key "key" false init0).2 =
      (.ok "answer",
       { env_api_key := some "key", client := some ⟨"key"⟩,
         file_search_store := some ⟨0⟩, storeCounter := 1, createCalls := 1,
         uploads := [], submitted := [], genCalls := [("hi", 0)] }) :=
  get_client_missing_iff_amended.2 "key" "hi" "answer"
    (fun _ _ => .ok "answer") (by decide) rfl

/-- Concrete credentialed state used by the C9 counterexample: a client
and a store are cached and no generation call has been made yet. -/
def chattyState : ServerState :=
  { env_api_key := some "k", client := some ⟨"k"⟩,
    file_search_store := some ⟨0⟩, storeCounter := 1, createCalls := 1,
    uploads := [], submitted := [], genCalls := [] }

/-- Counterexample to C9 as stated: the chat endpoint performs no
non-emptiness validation on the message (`ChatRequest` only requires a
string), so an empty message is NOT rejected: it is forwarded to the
external generation endpoint (the call is logged) and the generated
answer is returned with success. -/
theorem chat_empty_message_cex :
    (chat "" (fun _ _ => .ok "generated") chattyState).1 = .ok "generated" ∧
    (chat "" (fun _ _ => .ok "generated") chattyState).2.genCalls =
      [("", 0)] :=
  ⟨rfl, rfl⟩

/-- C9 (amended): `ask(message)` accepts any string message, empty
included: with client and store cached, every message — the empty one in
particular — is forwarded to the generation endpoint restricted to the
store, and the generated answer is returned verbatim on success. -/
theorem chat_forwards_any_message (message : String) (s : ServerState)
    (cl : Client) (st : Store)
    (gen : String → Nat → Except String String)
    (hc : s.client = some cl) (hst : s.file_search_store = some st) :
    (chat message gen s).2.genCalls =
      s.genCalls ++ [(message, st.name)] ∧
    ∀ answer, gen message st.name = .ok answer →
      (chat message gen s).1 = .ok answer := by
  have hcl := get_client_cached s cl hc
  have hstc := gfss_cached s st hst
  constructor
  · simp only [chat, hcl, hstc]
    cases hg : gen message st.name <;> simp [hg]
  · intro answer hgen
    simp only [chat, hcl, hstc]
    simp [hgen]

/-- Witness for the amended C9 at the empty message. -/
theorem chat_forwards_any_message_witness :
    (chat "" (fun _ _ => .ok "txt") chattyState).2.genCalls = [("", 0)] ∧
    (chat "" (fun _ _ => .ok "txt") chattyState).1 = .ok "txt" :=
  ⟨(chat_forwards_any_message "" chattyState ⟨"k"⟩ ⟨0⟩
      (fun _ _ => .ok "txt") rfl rfl).1,
   (chat_forwards_any_message "" chattyState ⟨"k"⟩ ⟨0⟩
      (fun _ _ => .ok "txt") rfl rfl).2 "txt" rfl⟩

end GeminiDemo
